import Mathlib

/-!
Verification of the zero-shot scoring and paired-control evaluation pipeline
of the chrombench repository (`src/dnalm_bench/paired_control/zero_shot/evaluators.py`,
`src/dnalm_bench/single/evaluators.py`, `src/dnalm_bench/single/finetune.py`),
shallowly embedded in Lean.

Tensors are embedded as lists of lists over `ℤ` (token ids) or `ℚ`
(log-likelihoods, exact rational arithmetic in place of floats).  The external
pretrained language model is abstracted as a function assigning a
log-probability to a target token at a (row, position) of an input batch.
Fallible Python code paths (missing required call arguments, `zip` over a
non-iterable, attribute access on `None`, missing dictionary keys, CUDA
out-of-memory) are embedded as `Except PyErr`.
-/

namespace Chrombench

/-- The Python exception kinds arising in the embedded code paths. -/
inductive PyErr where
  | typeError
  | keyError
  | valueError
  | attributeError
  | oom
  | other
deriving DecidableEq

/-- A batch × position integer tensor (token ids, attention masks). -/
abbrev Tensor2 := List (List ℤ)

/-- A batch × position rational tensor (per-position log-likelihoods). -/
abbrev Mat := List (List ℚ)

/-- The external language model, abstracted: the log-probability it assigns to
a target token id at (row, position) given the whole input batch.  The model
is bidirectional, so the value may depend on the entire input. -/
abbrev LogProb := Tensor2 → ℕ → ℕ → ℤ → ℚ

/-- Entry (n, i) of a rational matrix, 0 outside bounds. -/
def entry (m : Mat) (n i : ℕ) : ℚ := (m.getD n []).getD i 0

/-- Number of token positions: `tokens.shape[1]`. -/
def numCols (tokens : Tensor2) : ℕ := (tokens.headD []).length

/-- Number of positions of a rational matrix: `lls.shape[1]`. -/
def numColsQ (m : Mat) : ℕ := (m.headD []).length

/-- Clone-and-mask: `masked_tokens = tokens.clone(); masked_tokens[:, i, ...] = mask_token`:
column `i` of every row replaced by the mask token id (value level). -/
def maskAt (tokens : Tensor2) (i : ℕ) (m : ℤ) : Tensor2 :=
  tokens.map (fun row => row.set i m)

/-- Embeds `HFZeroShotEvaluator.model_fwd` (paired module, lines 139-148):
`lls = -F.cross_entropy(logits, tokens, reduction="none")` where `tokens` is
the *input* argument of `model_fwd`.  So entry (n, t) is the model's
log-probability of the token `input[n][t]` — the target of the cross-entropy
is the batch that was passed in, whatever it contains. -/
def model_fwd (lp : LogProb) (input : Tensor2) : Mat :=
  (List.range input.length).map fun n =>
    (List.range ((input.getD n []).length)).map fun t =>
      lp input n t ((input.getD n []).getD t 0)

/-- A Python call of `HFZeroShotEvaluator.model_fwd`: the signature
`model_fwd(self, tokens, attention_mask)` has two required positional
parameters and no defaults, so a call supplying only `tokens` raises
`TypeError`.  The attention mask is forwarded to the external model, which is
abstracted here, so only presence of the argument matters. -/
def model_fwd_call (lp : LogProb) : Option Tensor2 → Option Tensor2 → Except PyErr Mat
  | some input, some _ => .ok (model_fwd lp input)
  | _, _ => .error .typeError

/-- The clip indicator `1 if start <= i < end else 0` for one row. -/
def clipInd (s e : ℤ) (i : ℕ) : ℚ := if s ≤ (i : ℤ) ∧ (i : ℤ) < e then 1 else 0

/-- The `starts` value returned by `tokenize`: either the Python scalar `0`
(paired module, model family without a start token) or a per-row tensor. -/
inductive StartsVal where
  | scalar (s : ℤ)
  | vec (ss : List ℤ)
deriving DecidableEq

namespace MaskedZeroShotScore

/-- The mask `clip_mask = ((i >= starts) & (i < ends))` (paired module, line 25): an
elementwise comparison against the per-row `ends`; a scalar `starts`
broadcasts (`i >= 0` is a Python bool, which `&` broadcasts over the tensor). -/
def clipMaskAt (i : ℕ) : StartsVal → List ℤ → List Bool
  | .scalar s, ends => ends.map fun e => decide (s ≤ (i : ℤ) ∧ (i : ℤ) < e)
  | .vec ss, ends => (ss.zip ends).map fun p => decide (p.1 ≤ (i : ℤ) ∧ (i : ℤ) < p.2)

/-- Embeds `MaskedZeroShotScore.score` (paired module, lines 20-32): for each
position `i`, clone the tokens, write the mask token at column `i`, run one
forward pass, take column `i` of the returned log-likelihoods, multiply by the
clip mask, and finally sum each row.  Note that the forward pass receives the
*masked* batch, so `model_fwd`'s cross-entropy target at column `i` is the
mask token id. -/
def score (lp : LogProb) (maskTok : ℤ) (tokens : Tensor2) (starts : StartsVal)
    (ends : List ℤ) : List ℚ :=
  (List.range tokens.length).map fun n =>
    ((List.range (numCols tokens)).map fun i =>
      entry (model_fwd lp (maskAt tokens i maskTok)) n i *
        (if (clipMaskAt i starts ends).getD n false then 1 else 0)).sum

/-- What the specification states the masked variant computes: at each
position `i` of the masked batch, the model's log-likelihood of the
*original* token `tokens[n][i]` (negative cross-entropy between the logits of
the masked batch and the original tokens). -/
def specScore (lp : LogProb) (maskTok : ℤ) (tokens : Tensor2) (starts : StartsVal)
    (ends : List ℤ) : List ℚ :=
  (List.range tokens.length).map fun n =>
    ((List.range (numCols tokens)).map fun i =>
      lp (maskAt tokens i maskTok) n i ((tokens.getD n []).getD i 0) *
        (if (clipMaskAt i starts ends).getD n false then 1 else 0)).sum

end MaskedZeroShotScore

/-- A model for the C1 check: log-probability −1 for the mask token id 9,
−2 for every other target token, independent of position. -/
def lpC1 : LogProb := fun _ _ _ tgt => if tgt = 9 then -1 else -2

/-- C1: with a single sequence `[5]`, boundaries `[0, 1)`, and mask token 9,
the code's score is the log-likelihood of the MASK token (−1), not of the
original token 5 (−2): `model_fwd`'s cross-entropy target is its input, which
inside the masked loop is the masked batch.  The spec's description (score the
original token) yields a different value on the same input. -/
theorem maskedScore_targets_mask_token :
    MaskedZeroShotScore.score lpC1 9 [[5]] (.vec [0]) [1] = [-1] ∧
    MaskedZeroShotScore.specScore lpC1 9 [[5]] (.vec [0]) [1] = [-2] ∧
    MaskedZeroShotScore.score lpC1 9 [[5]] (.vec [0]) [1] ≠
      MaskedZeroShotScore.specScore lpC1 9 [[5]] (.vec [0]) [1] := by
  have h1 : MaskedZeroShotScore.score lpC1 9 [[5]] (.vec [0]) [1] = [-1] := by
    norm_num [MaskedZeroShotScore.score, MaskedZeroShotScore.clipMaskAt, lpC1,
      model_fwd, maskAt, entry, numCols, List.range_succ]
  have h2 : MaskedZeroShotScore.specScore lpC1 9 [[5]] (.vec [0]) [1] = [-2] := by
    norm_num [MaskedZeroShotScore.specScore, MaskedZeroShotScore.clipMaskAt, lpC1,
      model_fwd, maskAt, entry, numCols, List.range_succ]
  refine ⟨h1, h2, ?_⟩
  rw [h1, h2]
  intro h
  exact absurd (List.head_eq_of_cons_eq h) (by norm_num)

/-- Evaluation of `getD` through `List.map`. -/
theorem map_getD {α β : Type} (f : α → β) (d : β) (d0 : α) :
    ∀ (l : List α) (n : ℕ), n < l.length → (l.map f).getD n d = f (l.getD n d0)
  | [], _, h => absurd h (by simp)
  | _ :: _, 0, _ => rfl
  | _ :: l, n + 1, h => by
      simpa using map_getD f d d0 l n (by simpa using h)

/-- Evaluation of `getD` through `List.map` over a `List.zip` of equal-length prefixes. -/
theorem zip_map_getD {α : Type} (g : ℤ × ℤ → α) (d : α) :
    ∀ (ss ends : List ℤ) (k : ℕ), k < ss.length → k < ends.length →
      ((ss.zip ends).map g).getD k d = g (ss.getD k 0, ends.getD k 0)
  | [], _, _, h, _ => absurd h (by simp)
  | _ :: _, [], _, _, h => absurd h (by simp)
  | _ :: _, _ :: _, 0, _, _ => rfl
  | _ :: ss, _ :: ends, k + 1, h1, h2 => by
      simpa using zip_map_getD g d ss ends k (by simpa using h1) (by simpa using h2)

/-- Evaluation of `getD` through `List.map` over `List.range`. -/
theorem range_map_getD {α : Type} (f : ℕ → α) (d : α) (T j : ℕ) (hj : j < T) :
    ((List.range T).map f).getD j d = f j := by
  rw [List.getD_eq_getElem ((List.range T).map f) d (by simpa using hj),
    List.getElem_map, List.getElem_range]

namespace CausalZeroShotScore

/-- The causal mask `clip_mask = torch.tensor([[(i >= s) and (i < e) for i in range(lls.shape[1])]
for s, e in zip(starts, ends)], ...)` (paired module, lines 39-40).  `zip`
requires both arguments to be iterable: when `starts` is the Python scalar
`0` (the paired tokenizer's value for a model family without a start token),
`zip(0, ends)` raises `TypeError: 'int' object is not iterable`. -/
def clipMask (T : ℕ) : StartsVal → List ℤ → Except PyErr Mat
  | .scalar _, _ => .error .typeError
  | .vec ss, ends =>
      .ok ((ss.zip ends).map fun p => (List.range T).map fun i => clipInd p.1 p.2 i)

/-- Computes `(lls * clip_mask).sum(1)`: per-row dot product then row sums. -/
def rowDotSum (a b : Mat) : List ℚ :=
  (a.zip b).map fun p => ((p.1.zip p.2).map fun q => q.1 * q.2).sum

/-- Embeds `CausalZeroShotScore.score` (paired module, lines 35-44):
`lls = self.model_fwd(tokens)` supplies only the first of `model_fwd`'s two
required positional arguments — no `attention_mask` is passed — then builds
the clip mask and sums.  The attention-mask argument of `score` itself is
never consulted before the `model_fwd` call. -/
def score (lp : LogProb) (tokens : Tensor2) (starts : StartsVal) (ends : List ℤ)
    (_attn : Option Tensor2) : Except PyErr (List ℚ) := do
  let lls ← model_fwd_call lp (some tokens) none
  let cm ← clipMask (numColsQ lls) starts ends
  pure (rowDotSum lls cm)

/-- Embeds `CausalZeroShotScore.score` of the single module
(`single/evaluators.py` lines 177-186): identical except that `model_fwd` is
called with both arguments, `self.model_fwd(tokens, attention_mask)`, so the
forward pass happens; `starts`/`ends` there are always per-row tensors. -/
def scoreSingle (lls : Mat) (starts ends : List ℤ) : List ℚ :=
  rowDotSum lls
    ((starts.zip ends).map fun p => (List.range (numColsQ lls)).map fun i => clipInd p.1 p.2 i)

end CausalZeroShotScore

/-- A model for the C2 check: all log-probabilities 0. -/
def lpC2 : LogProb := fun _ _ _ _ => 0

/-- C2: the paired-module causal score never reaches a forward pass: the call
`self.model_fwd(tokens)` omits the required `attention_mask` parameter of
`HFZeroShotEvaluator.model_fwd`, so every invocation raises `TypeError`
(here: on a 1×2 batch with boundaries `[0, 2)` and an attention mask
available but never forwarded). -/
theorem causalScorePaired_raises_typeError :
    CausalZeroShotScore.score lpC2 [[3, 4]] (.vec [0]) [2] (some [[1, 1]]) =
      .error .typeError := by
  rfl

/-- C3 counterexample: with the scalar start `0` (no start token) and
per-sequence ends `[2, 3]`, the causal variant's mask construction raises
`TypeError` (`zip` over the scalar) instead of producing any clip mask, so
the clip-mask property does not hold "in both the masked and causal
variants" as claimed. -/
theorem causalClipMask_scalar_start_raises :
    CausalZeroShotScore.clipMask 3 (.scalar 0) [2, 3] = .error .typeError := by
  rfl

/-- C3 (amended): with per-sequence `starts`/`ends` the masked variant's
mask is 1 exactly on `[start, end)` for every row; with the scalar start `0`
broadcasting in the masked variant still yields a correct per-sequence mask;
the causal variant yields the correct per-row masks for per-sequence
`starts`, but raises `TypeError` for any scalar start. -/
theorem clipMask_boundary_correct (i n T k j : ℕ) (ss ends : List ℤ) (s : ℤ)
    (hn : n < ends.length) (hlen : ss.length = ends.length)
    (hk : k < ss.length) (hj : j < T) :
    ((MaskedZeroShotScore.clipMaskAt i (.vec ss) ends).getD n false =
      decide (ss.getD n 0 ≤ (i : ℤ) ∧ (i : ℤ) < ends.getD n 0)) ∧
    ((MaskedZeroShotScore.clipMaskAt i (.scalar 0) ends).getD n false =
      decide (0 ≤ (i : ℤ) ∧ (i : ℤ) < ends.getD n 0)) ∧
    (∃ M, CausalZeroShotScore.clipMask T (.vec ss) ends = .ok M ∧
      (M.getD k []).getD j 0 =
        (if ss.getD k 0 ≤ (j : ℤ) ∧ (j : ℤ) < ends.getD k 0 then (1 : ℚ) else 0)) ∧
    (CausalZeroShotScore.clipMask T (.scalar s) ends = .error .typeError) := by
  have hn' : n < ss.length := hlen ▸ hn
  have hke : k < ends.length := hlen ▸ hk
  refine ⟨?_, ?_, ?_, rfl⟩
  · simp only [MaskedZeroShotScore.clipMaskAt]
    exact zip_map_getD _ false ss ends n hn' hn
  · simp only [MaskedZeroShotScore.clipMaskAt]
    exact map_getD _ false 0 ends n hn
  · refine ⟨_, rfl, ?_⟩
    rw [zip_map_getD _ [] ss ends k hk hke, range_map_getD _ 0 T j hj]
    rfl

/-- Witness for the amended C3 at a concrete batch: row 1, position 2,
starts `[1, 0]`, ends `[3, 2]`. -/
theorem clipMask_boundary_correct_witness :
    ((MaskedZeroShotScore.clipMaskAt 2 (.vec [1, 0]) [3, 2]).getD 1 false =
      decide (([1, 0] : List ℤ).getD 1 0 ≤ (2 : ℤ) ∧ (2 : ℤ) < ([3, 2] : List ℤ).getD 1 0)) ∧
    ((MaskedZeroShotScore.clipMaskAt 2 (.scalar 0) [3, 2]).getD 1 false =
      decide ((0 : ℤ) ≤ (2 : ℤ) ∧ (2 : ℤ) < ([3, 2] : List ℤ).getD 1 0)) ∧
    (∃ M, CausalZeroShotScore.clipMask 4 (.vec [1, 0]) [3, 2] = .ok M ∧
      (M.getD 0 []).getD 2 0 =
        (if ([1, 0] : List ℤ).getD 0 0 ≤ (2 : ℤ) ∧ (2 : ℤ) < ([3, 2] : List ℤ).getD 0 0
          then (1 : ℚ) else 0)) ∧
    (CausalZeroShotScore.clipMask 4 (.scalar 7) [3, 2] = .error .typeError) :=
  clipMask_boundary_correct 2 1 4 0 2 [1, 0] [3, 2] 7 (by decide) (by decide)
    (by decide) (by decide)

/-- The column indices at which token `t` occurs in one row, in order. -/
def colsOf (row : List ℤ) (t : ℤ) : List ℕ :=
  (List.range row.length).filter fun i => row.getD i 0 = t

/-- Embeds `torch.where(tokens == t)[1]`: the column indices of ALL matches across
the whole batch, flattened in row-major order — a flat batch-wide search with
no per-row structure. -/
def whereCols (tokens : Tensor2) (t : ℤ) : List ℕ :=
  (tokens.map fun r => colsOf r t).flatten

/-- The tuple returned by `tokenize`. -/
structure TokOut where
  tokens : Tensor2
  starts : StartsVal
  ends : List ℤ
  attn : Option Tensor2
deriving DecidableEq

/-- Embeds `LikelihoodEvaluator.tokenize` (single module, lines 36-52): the missing
attention mask is caught (`try/except` → `None`); `starts` falls back to a
per-row zero tensor (`torch.tensor([0]*tokens.shape[0])`); but with no end
token configured, `ends = attention_mask.sum(dim=1)` dereferences the `None`
mask and raises `AttributeError`. -/
def tokenizeSingle (mask : Option Tensor2) (startTok endTok : Option ℤ)
    (tokens : Tensor2) : Except PyErr TokOut :=
  let starts : StartsVal :=
    match startTok with
    | some s => .vec ((whereCols tokens s).map fun c => (c : ℤ) + 1)
    | none => .vec (List.replicate tokens.length 0)
  match endTok with
  | some e => .ok ⟨tokens, starts, (whereCols tokens e).map (fun c => (c : ℤ)), mask⟩
  | none =>
    match mask with
    | some m => .ok ⟨tokens, starts, m.map List.sum, mask⟩
    | none => .error .attributeError

/-- Embeds `HFZeroShotEvaluator.tokenize` (paired module, lines 124-137): there is
no `try/except` here — `encoded["attention_mask"]` raises `KeyError` when
the tokenizer returned no attention mask; with no start token configured
`starts` is the Python scalar `0`. -/
def tokenizePaired (mask : Option Tensor2) (startTok endTok : Option ℤ)
    (tokens : Tensor2) : Except PyErr TokOut :=
  match mask with
  | none => .error .keyError
  | some m =>
    let starts : StartsVal :=
      match startTok with
      | some s => .vec ((whereCols tokens s).map fun c => (c : ℤ) + 1)
      | none => .scalar 0
    match endTok with
    | some e => .ok ⟨tokens, starts, (whereCols tokens e).map (fun c => (c : ℤ)), some m⟩
    | none => .ok ⟨tokens, starts, m.map List.sum, some m⟩

/-- The method `MaskedZeroShotScore.score` begins with
`attention_mask = attention_mask.to(device=self.device)` (paired line 22,
single line 133) with no `None` check: a `None` attention mask raises
`AttributeError` before any scoring. -/
def MaskedZeroShotScore.scoreChecked (lp : LogProb) (maskTok : ℤ) (tokens : Tensor2)
    (starts : StartsVal) (ends : List ℤ) : Option Tensor2 → Except PyErr (List ℚ)
  | none => .error .attributeError
  | some _ => .ok (MaskedZeroShotScore.score lp maskTok tokens starts ends)

/-- Embeds `LikelihoodEvaluator.model_fwd` (single module, lines 54-66): try the
model with attention-mask keyword arguments; on ANY exception fall back to a
plain `model(tokens)` call.  Both external behaviours are parameters; the
fallback output is a total function, so `model_fwd` always returns a matrix. -/
def model_fwd_single (tryOut : Except PyErr Mat) (plainOut : Mat) : Mat :=
  match tryOut with
  | .ok m => m
  | .error _ => plainOut

/-- Causal scoring in the single module: `self.model_fwd(tokens,
attention_mask)` (both arguments), then clip and sum; no mask-dependent
operation outside `model_fwd`, so the whole call is total. -/
def CausalZeroShotScore.scorePipelineSingle (tryOut : Except PyErr Mat) (plainOut : Mat)
    (starts ends : List ℤ) : Except PyErr (List ℚ) :=
  .ok (CausalZeroShotScore.scoreSingle (model_fwd_single tryOut plainOut) starts ends)

/-- C4 counterexample: the claim fails in three concrete ways.  With no
attention mask and no end token id, the single-module `tokenize` itself
raises (`None.sum(dim=1)`); the masked scoring call does not tolerate a
`None` mask (`None.to(device)`); and the paired-module `tokenize` does not
substitute `None` at all but raises `KeyError`. -/
theorem tokenize_missing_mask_crashes :
    (tokenizeSingle none (some 1) none [[1, 5, 2]] = .error .attributeError) ∧
    (MaskedZeroShotScore.scoreChecked lpC2 9 [[1, 5, 2]] (.vec [2]) [2] none =
      .error .attributeError) ∧
    (tokenizePaired none (some 1) (some 2) [[1, 5, 2]] = .error .keyError) :=
  ⟨rfl, rfl, rfl⟩

/-- C4 (amended): when the tokenizer output has no attention mask, the
single-module `tokenize` substitutes `attention_mask = None` and completes
provided an end token id is configured, and the causal scoring call then
completes for any external model behaviour (the masked-call failure is caught
and a plain call is used); but with no end token id configured the
single-module `tokenize` raises, the masked scoring call does not tolerate a
`None` mask, and the paired-module `tokenize` raises on the missing mask. -/
theorem tokenize_mask_fallback (startTok : Option ℤ) (e : ℤ) (tokens : Tensor2)
    (tryOut : Except PyErr Mat) (plainOut : Mat) (starts ends : List ℤ)
    (herr : ∃ err, tryOut = .error err) :
    (∃ out, tokenizeSingle none startTok (some e) tokens = .ok out ∧ out.attn = none) ∧
    (CausalZeroShotScore.scorePipelineSingle tryOut plainOut starts ends =
      .ok (CausalZeroShotScore.scoreSingle plainOut starts ends)) ∧
    (tokenizeSingle none startTok none tokens = .error .attributeError) ∧
    (∀ lp maskTok toks sv ends2,
      MaskedZeroShotScore.scoreChecked lp maskTok toks sv ends2 none =
        .error .attributeError) ∧
    (∀ s2 e2 toks, tokenizePaired none s2 e2 toks = .error .keyError) := by
  obtain ⟨err, herr⟩ := herr
  subst herr
  exact ⟨⟨_, rfl, rfl⟩, rfl, rfl, fun _ _ _ _ _ => rfl, fun _ _ _ => rfl⟩

/-- Witness for the amended C4 at concrete inputs. -/
theorem tokenize_mask_fallback_witness :
    (∃ out, tokenizeSingle none (some 1) (some 2) [[1, 5, 2]] = .ok out ∧
      out.attn = none) ∧
    (CausalZeroShotScore.scorePipelineSingle (.error .typeError) [[1, 1, 1]] [0] [3] =
      .ok (CausalZeroShotScore.scoreSingle [[1, 1, 1]] [0] [3])) ∧
    (tokenizeSingle none (some 1) none [[1, 5, 2]] = .error .attributeError) ∧
    (∀ lp maskTok toks sv ends2,
      MaskedZeroShotScore.scoreChecked lp maskTok toks sv ends2 none =
        .error .attributeError) ∧
    (∀ s2 e2 toks, tokenizePaired none s2 e2 toks = .error .keyError) :=
  tokenize_mask_fallback (some 1) 2 [[1, 5, 2]] (.error .typeError) [[1, 1, 1]]
    [0] [3] ⟨.typeError, rfl⟩

/-- A flatten of singleton lists has one entry per list, in order. -/
theorem flatten_singletons :
    ∀ (l : List (List ℕ)), (∀ x ∈ l, x.length = 1) →
      l.flatten.length = l.length ∧
      ∀ n, n < l.length → l.getD n [] = [l.flatten.getD n 0]
  | [], _ => ⟨rfl, fun n hn => absurd hn (by simp)⟩
  | x :: l, h => by
      obtain ⟨a, rfl⟩ := List.length_eq_one.mp (h x (by simp))
      obtain ⟨ih1, ih2⟩ := flatten_singletons l (fun y hy => h y (by simp [hy]))
      refine ⟨by simpa using ih1, fun n hn => ?_⟩
      match n with
      | 0 => rfl
      | n + 1 => simpa using ih2 n (by simpa using hn)

/-- C10 (amended): when the configured start and end token ids each occur
exactly once per row, `tokenize` returns boundary arrays aligned with the
batch: one entry per row, the start entry being that row's start-token column
plus one and the end entry that row's end-token column.  In general the flat
batch-wide search returns one entry per match, so its length is the total
match count over the batch — with no error raised — which differs from the
batch size unless absences and duplicates compensate across rows. -/
theorem tokenize_flat_search_alignment (m : Tensor2) (tokens : Tensor2) (s e : ℤ)
    (hs : ∀ row ∈ tokens, (colsOf row s).length = 1)
    (he : ∀ row ∈ tokens, (colsOf row e).length = 1) :
    (∃ out, tokenizeSingle (some m) (some s) (some e) tokens = .ok out ∧
      out.starts = .vec ((whereCols tokens s).map fun c => (c : ℤ) + 1) ∧
      out.ends = (whereCols tokens e).map (fun c => (c : ℤ))) ∧
    (whereCols tokens s).length = tokens.length ∧
    (whereCols tokens e).length = tokens.length ∧
    (∀ n, n < tokens.length →
      colsOf (tokens.getD n []) s = [(whereCols tokens s).getD n 0] ∧
      colsOf (tokens.getD n []) e = [(whereCols tokens e).getD n 0]) ∧
    (∀ t : ℤ, (whereCols tokens t).length =
      (tokens.map fun r => (colsOf r t).length).sum) := by
  have hs' := flatten_singletons (tokens.map fun r => colsOf r s)
    (by intro x hx; obtain ⟨row, hrow, rfl⟩ := List.mem_map.mp hx; exact hs row hrow)
  have he' := flatten_singletons (tokens.map fun r => colsOf r e)
    (by intro x hx; obtain ⟨row, hrow, rfl⟩ := List.mem_map.mp hx; exact he row hrow)
  refine ⟨⟨_, rfl, rfl, rfl⟩, by simpa [whereCols] using hs'.1,
    by simpa [whereCols] using he'.1, fun n hn => ?_,
    fun t => by simp only [whereCols, List.length_flatten, List.map_map]; rfl⟩
  constructor
  · have := hs'.2 n (by simpa using hn)
    rwa [map_getD _ [] [] tokens n hn] at this
  · have := he'.2 n (by simpa using hn)
    rwa [map_getD _ [] [] tokens n hn] at this

/-- Witness for the amended C10: DNABERT-style ids, start token 1, end token
2, two rows. -/
theorem tokenize_flat_search_alignment_witness :
    (∃ out, tokenizeSingle (some [[1, 1, 1], [1, 1, 1]]) (some 1) (some 2)
        [[1, 5, 2], [5, 1, 2]] = .ok out ∧
      out.starts = .vec ((whereCols [[1, 5, 2], [5, 1, 2]] 1).map fun c => (c : ℤ) + 1) ∧
      out.ends = (whereCols [[1, 5, 2], [5, 1, 2]] 2).map (fun c => (c : ℤ))) ∧
    (whereCols [[1, 5, 2], [5, 1, 2]] 1).length = ([[1, 5, 2], [5, 1, 2]] : Tensor2).length ∧
    (whereCols [[1, 5, 2], [5, 1, 2]] 2).length = ([[1, 5, 2], [5, 1, 2]] : Tensor2).length ∧
    (∀ n, n < ([[1, 5, 2], [5, 1, 2]] : Tensor2).length →
      colsOf (([[1, 5, 2], [5, 1, 2]] : Tensor2).getD n []) 1 =
        [(whereCols [[1, 5, 2], [5, 1, 2]] 1).getD n 0] ∧
      colsOf (([[1, 5, 2], [5, 1, 2]] : Tensor2).getD n []) 2 =
        [(whereCols [[1, 5, 2], [5, 1, 2]] 2).getD n 0]) ∧
    (∀ t : ℤ, (whereCols [[1, 5, 2], [5, 1, 2]] t).length =
      (([[1, 5, 2], [5, 1, 2]] : Tensor2).map fun r => (colsOf r t).length).sum) :=
  tokenize_flat_search_alignment [[1, 1, 1], [1, 1, 1]] [[1, 5, 2], [5, 1, 2]] 1 2
    (by decide) (by decide)

/-- C10 counterexample: the claim asserts that a row lacking the token (or
holding it twice) yields boundary arrays whose length differs from the batch
size.  With batch `[[1, 1], [0, 0]]` and token 1, the second row has no match
and the first has two, yet the flat search returns exactly 2 = batch-size
entries (both from row 0), silently misaligned. -/
theorem whereCols_compensating_counts :
    (colsOf ([0, 0] : List ℤ) 1).length = 0 ∧
    whereCols [[1, 1], [0, 0]] 1 = [0, 1] ∧
    (whereCols [[1, 1], [0, 0]] 1).length = ([[1, 1], [0, 0]] : Tensor2).length :=
  ⟨rfl, rfl, rfl⟩

/-- Embeds `np.mean`: sum divided by length. -/
def meanQ (xs : List ℚ) : ℚ := xs.sum / (xs.length : ℚ)

/-- The average rank (ties averaged, `scipy.stats.rankdata` method
"average") of `|x|` among the absolute values of `ds`:
(count strictly below) + (count equal + 1) / 2. -/
def rankAvg (ds : List ℚ) (x : ℚ) : ℚ :=
  ((ds.countP fun y => decide (|y| < |x|) : ℕ) : ℚ) +
    (((ds.countP fun y => decide (|y| = |x|) : ℕ) : ℚ) + 1) / 2

/-- The one-sided Wilcoxon signed-rank statistic: the sum of the average
ranks (by absolute value) of the positive entries. -/
def signedRankSum (d : List ℚ) : ℚ :=
  ((d.filter fun x => decide (0 < x)).map (rankAvg d)).sum

/-- Modelled from the spec: `scipy.stats.wilcoxon(diffs,
alternative="greater")`, an external library call.  Per its documentation:
with the default `zero_method="wilcox"` the zero differences are discarded
before ranking; if every difference is zero the test is undefined and the
call raises `ValueError`; otherwise the reported statistic is the sum of the
ranks of the positive differences, and the p-value is computed from the
ranked signed differences alone — represented here by the parameter `pval`
applied to the sorted nonzero differences (a canonical form of their
multiset). -/
def wilcoxonGreater (pval : List ℚ → ℚ) (D : List ℚ) : Except PyErr (ℚ × ℚ) :=
  let d := D.filter fun x => decide (x ≠ 0)
  if d.isEmpty then .error .valueError
  else .ok (signedRankSum d, pval (List.insertionSort (fun a b => a ≤ b) d))

/-- Embeds `np.percentile` with the default linear interpolation, for
`0 ≤ q ≤ 100` on a nonempty list (`np.median` is the `q = 50` case):
index `h = q(n−1)/100` into the sorted data, interpolating between the
two neighbouring order statistics. -/
def npPercentile (D : List ℚ) (q : ℚ) : ℚ :=
  let a := List.insertionSort (fun x y => x ≤ y) D
  let h : ℚ := q * ((D.length : ℚ) - 1) / 100
  let i : ℕ := (Int.floor h).toNat
  let lo := a.getD i 0
  let hi := a.getD (i + 1) lo
  lo + (h - (i : ℚ)) * (hi - lo)

/-- Embeds `ZeroShotPairedControlEvaluator.evaluate` finalization (lines 85-98):
concatenate the accumulated diffs, compute `acc` as the mean of the
`diff > 0` flags, call `wilcoxon(diffs, alternative="greater")` (an
uncaught `ValueError` propagates), and build the metrics mapping in
insertion order. -/
def finalizeMetrics (pval : List ℚ → ℚ) (D : List ℚ) :
    Except PyErr (List (String × ℚ)) := do
  let acc : ℚ := ((D.countP fun x => decide (0 < x) : ℕ) : ℚ) / (D.length : ℚ)
  let w ← wilcoxonGreater pval D
  .ok [("acc", acc), ("pval", w.2), ("signed_rank_sum", w.1),
    ("mean_diff", meanQ D),
    ("q05_diff", npPercentile D 5), ("q25_diff", npPercentile D 25),
    ("median_diff", npPercentile D 50), ("q75_diff", npPercentile D 75),
    ("q95_diff", npPercentile D 95)]

/-- The batch loop of `evaluate` (lines 67-86): for each batch the two arms
are scored and subtracted elementwise; the per-batch difference arrays are
accumulated in order and concatenated before finalization. -/
def evaluateBatches (pval : List ℚ → ℚ) (batches : List (List (ℚ × ℚ))) :
    Except PyErr (List (String × ℚ)) :=
  finalizeMetrics pval ((batches.map fun b => b.map fun p => p.1 - p.2).flatten)

/-- C5: when every accumulated difference is exactly zero, finalization
raises the (modelled) scipy `ValueError` — the documented no-signal
condition — and no metrics mapping (numeric or NaN) is returned. -/
theorem finalize_all_zero_diffs_raises (pval : List ℚ → ℚ) (D : List ℚ)
    (hz : ∀ x ∈ D, x = 0) :
    finalizeMetrics pval D = .error .valueError := by
  have hfil : (D.filter fun x => decide (x ≠ 0)) = [] :=
    List.filter_eq_nil_iff.mpr fun a ha => by simp [hz a ha]
  unfold finalizeMetrics wilcoxonGreater
  rw [hfil]
  rfl

/-- Witness for C5 at the spec's example `D = [0, 0, 0]`. -/
theorem finalize_all_zero_diffs_raises_witness :
    finalizeMetrics (fun _ => 0) [0, 0, 0] = .error .valueError :=
  finalize_all_zero_diffs_raises (fun _ => 0) [0, 0, 0] (by decide)

/-- C6: whenever some difference is nonzero, finalization returns the
metrics mapping with exactly the keys `acc`, `pval`, `signed_rank_sum`,
`mean_diff`, `q05_diff`, `q25_diff`, `median_diff`, `q75_diff`, `q95_diff`
in that order, where `acc` is the fraction of differences strictly greater
than zero (zeros count as incorrect), `signed_rank_sum` is the signed-rank
sum of the nonzero differences, `pval` is the modelled wilcoxon p-value of
the same data, `mean_diff` is the arithmetic mean, and the `q*` entries are
the numpy linear-interpolation percentiles at 5/25/50/75/95 (`median` = 50). -/
theorem finalize_metrics_spec (pval : List ℚ → ℚ) (D : List ℚ)
    (hnz : (D.filter fun x => decide (x ≠ 0)) ≠ []) :
    finalizeMetrics pval D = .ok
      [("acc", ((D.countP fun x => decide (0 < x) : ℕ) : ℚ) / (D.length : ℚ)),
       ("pval", pval (List.insertionSort (fun a b => a ≤ b)
          (D.filter fun x => decide (x ≠ 0)))),
       ("signed_rank_sum", signedRankSum (D.filter fun x => decide (x ≠ 0))),
       ("mean_diff", D.sum / (D.length : ℚ)),
       ("q05_diff", npPercentile D 5), ("q25_diff", npPercentile D 25),
       ("median_diff", npPercentile D 50), ("q75_diff", npPercentile D 75),
       ("q95_diff", npPercentile D 95)] := by
  have hfil : (D.filter fun x => decide (x ≠ 0)).isEmpty = false := by
    simpa [List.isEmpty_iff] using hnz
  simp only [finalizeMetrics, wilcoxonGreater, meanQ]
  rw [hfil]
  rfl

/-- Witness for C6 at the spec's example `diffs = [1.0, -2.0, 0.5, -0.1]`:
`acc = 0.5` (zeros and negatives count as incorrect), signed-rank sum 5,
mean −0.15, percentiles by numpy linear interpolation. -/
theorem finalize_metrics_spec_witness :
    finalizeMetrics (fun _ => 0) [1, -2, 1/2, -1/10] = .ok
      [("acc", 1/2), ("pval", 0), ("signed_rank_sum", 5), ("mean_diff", -3/20),
       ("q05_diff", -343/200), ("q25_diff", -23/40), ("median_diff", 1/5),
       ("q75_diff", 5/8), ("q95_diff", 37/40)] := by
  rw [finalize_metrics_spec (fun _ => 0) [1, -2, 1/2, -1/10] (by norm_num; simp)]
  have hfil : (List.filter (fun x => decide (x ≠ 0)) [1, -2, 1/2, -1/10] : List ℚ) =
      [1, -2, 1/2, -1/10] := by norm_num
  rw [hfil]
  have hstat : signedRankSum [1, -2, 1/2, -1/10] = 5 := by
    norm_num [signedRankSum, rankAvg, List.countP_cons, abs_of_pos, abs_of_neg]
  have h05 : npPercentile [1, -2, 1/2, -1/10] 5 = -343/200 := by
    norm_num [npPercentile, List.insertionSort, List.orderedInsert]
  have h25 : npPercentile [1, -2, 1/2, -1/10] 25 = -23/40 := by
    norm_num [npPercentile, List.insertionSort, List.orderedInsert]
  have h50 : npPercentile [1, -2, 1/2, -1/10] 50 = 1/5 := by
    norm_num [npPercentile, List.insertionSort, List.orderedInsert]
  have h75 : npPercentile [1, -2, 1/2, -1/10] 75 = 5/8 := by
    norm_num [npPercentile, List.insertionSort, List.orderedInsert]
    simp
    norm_num
  have h95 : npPercentile [1, -2, 1/2, -1/10] 95 = 37/40 := by
    norm_num [npPercentile, List.insertionSort, List.orderedInsert]
    simp
    norm_num
  rw [hstat, h05, h25, h50, h75, h95]
  norm_num [List.countP_cons]

/-- A permutation of a list of lists yields a permutation of their
concatenation. -/
theorem flatten_perm {α : Type} {l1 l2 : List (List α)} (h : l1.Perm l2) :
    l1.flatten.Perm l2.flatten := by
  induction h with
  | nil => exact .rfl
  | cons x _ ih => simpa using ih.append_left x
  | swap x y l => simpa using List.perm_append_comm_assoc y x l.flatten
  | trans _ _ ih1 ih2 => exact ih1.trans ih2

/-- The signed-rank statistic depends only on the multiset of differences. -/
theorem signedRankSum_perm {d1 d2 : List ℚ} (h : d1.Perm d2) :
    signedRankSum d1 = signedRankSum d2 := by
  have hr : rankAvg d1 = rankAvg d2 := funext fun x => by
    simp only [rankAvg, h.countP_eq]
  simp only [signedRankSum]
  rw [hr]
  exact ((h.filter _).map (rankAvg d2)).sum_eq

/-- Sorting canonicalizes: permuted lists sort to the same list. -/
theorem insertionSort_perm_eq {l1 l2 : List ℚ} (h : l1.Perm l2) :
    List.insertionSort (fun a b => a ≤ b) l1 =
      List.insertionSort (fun a b => a ≤ b) l2 := by
  refine List.eq_of_perm_of_sorted ?_ (List.sorted_insertionSort _ l1)
    (List.sorted_insertionSort _ l2)
  exact (List.perm_insertionSort _ l1).trans (h.trans (List.perm_insertionSort _ l2).symm)

/-- Finalization is a function of the multiset of differences only: every
reported metric (accuracy, p-value, signed-rank statistic, mean, and all
percentiles) is unchanged by permuting `D`. -/
theorem finalizeMetrics_perm (pval : List ℚ → ℚ) {D1 D2 : List ℚ} (h : D1.Perm D2) :
    finalizeMetrics pval D1 = finalizeMetrics pval D2 := by
  have hf : (D1.filter fun x => decide (x ≠ 0)).Perm
      (D2.filter fun x => decide (x ≠ 0)) := h.filter _
  have hie : (D1.filter fun x => decide (x ≠ 0)).isEmpty =
      (D2.filter fun x => decide (x ≠ 0)).isEmpty := by
    by_cases hc : (D1.filter fun x => decide (x ≠ 0)) = []
    · have hc2 : (D2.filter fun x => decide (x ≠ 0)) = [] :=
        ((hc ▸ hf : ([] : List ℚ).Perm _).symm).eq_nil
      rw [hc, hc2]
    · have hc2 : ¬ (D2.filter fun x => decide (x ≠ 0)) = [] := fun he =>
        hc ((he ▸ hf.symm : ([] : List ℚ).Perm _).symm).eq_nil
      rw [List.isEmpty_eq_false.mpr hc, List.isEmpty_eq_false.mpr hc2]
  simp only [finalizeMetrics, wilcoxonGreater, meanQ, npPercentile]
  rw [hie, insertionSort_perm_eq h, insertionSort_perm_eq hf, h.length_eq,
    h.countP_eq (fun x => decide (0 < x)), h.sum_eq, signedRankSum_perm hf]

/-- C7: permuting the order in which batches are accumulated leaves every
aggregate metric of `evaluate` unchanged — the finalization is an
order-independent function of the concatenated difference array. -/
theorem evaluate_order_invariant (pval : List ℚ → ℚ)
    (b1 b2 : List (List (ℚ × ℚ))) (h : b1.Perm b2) :
    evaluateBatches pval b1 = evaluateBatches pval b2 :=
  finalizeMetrics_perm pval (flatten_perm (h.map _))

/-- Witness for C7: swapping two concrete one-pair batches. -/
theorem evaluate_order_invariant_witness :
    evaluateBatches (fun _ => 0) [[((2 : ℚ), (1 : ℚ))], [(0, 3)]] =
      evaluateBatches (fun _ => 0) [[(0, 3)], [(2, 1)]] :=
  evaluate_order_invariant (fun _ => 0) _ _ (List.Perm.swap _ _ _)

namespace Finetune

/-- Embeds `log1pMSELoss` (`single/finetune.py` lines 135-137) reduced over a batch:
the mean over the batch of the per-sample squared log-count errors.  The
per-sample values (squares of log differences, computed by the external
model and `torch.log`) are taken as given rationals. -/
def log1pMSELoss (errs : List ℚ) : ℚ := meanQ errs

/-- The training-step body of `train_finetuned_chromatin_model`
(`single/finetune.py` lines 216-232).  `fwd` abstracts the forward pass on a
(sub)batch: per-sample squared log errors, or an exception.  On success the
step contributes `log1pMSELoss(batch)/accumulate` to the accumulated
gradient; on `torch.cuda.OutOfMemoryError` — and only on that exception —
the batch is split at the midpoint and each half contributes its loss
divided by `accumulate * 2` (by linearity of the gradient the step's total
contribution is the sum of the two); an exception raised by either half
propagates, as there is no nested handler. -/
def trainStep {α : Type} (fwd : List α → Except PyErr (List ℚ)) (accumulate : ℚ)
    (batch : List α) : Except PyErr ℚ :=
  match fwd batch with
  | .ok errs => .ok (log1pMSELoss errs / accumulate)
  | .error .oom =>
      match fwd (batch.take (batch.length / 2)) with
      | .error e1 => .error e1
      | .ok errs1 =>
        match fwd (batch.drop (batch.length / 2)) with
        | .error e2 => .error e2
        | .ok errs2 =>
            .ok (log1pMSELoss errs1 / (accumulate * 2) +
              log1pMSELoss errs2 / (accumulate * 2))
  | .error e => .error e

end Finetune

/-- A forward pass that exhausts memory on batches of three or more samples
and otherwise reports the samples themselves as per-sample errors. -/
def fwdOom : List ℚ → Except PyErr (List ℚ) := fun b =>
  if 3 ≤ b.length then .error .oom else .ok b

/-- C8 counterexample: on the odd batch `[0, 0, 1]` (midpoint split `[0]`
and `[0, 1]`), the recovery path contributes 1/4 while the unsplit
computation is 1/3 — halving each half's mean loss does not reproduce the
full-batch mean when the halves differ in size, so the merged result does
not match the unsplit computation as claimed. -/
theorem trainStep_split_mismatch :
    Finetune.trainStep fwdOom 1 [0, 0, 1] = .ok (1/4) ∧
    Finetune.log1pMSELoss [0, 0, 1] / 1 = 1/3 ∧
    (1/4 : ℚ) ≠ 1/3 := by
  refine ⟨?_, by norm_num [Finetune.log1pMSELoss, meanQ], by norm_num⟩
  norm_num [Finetune.trainStep, fwdOom, Finetune.log1pMSELoss, meanQ]

/-- C8 (amended): the handler catches exactly the resource-exhaustion
condition (other exceptions propagate unsplit); on that condition it splits
the batch at the midpoint, runs each half independently, and accumulates
each half's loss rescaled by one half; the merged contribution equals the
unsplit computation exactly when the two halves have equal size (even
batches); and an exception inside either half propagates instead of
recursing further. -/
theorem trainStep_oom_recovery (α : Type) :
    (∀ (fwd : List α → Except PyErr (List ℚ)) (a : ℚ) (batch : List α) (errs : List ℚ),
      fwd batch = .ok errs →
      Finetune.trainStep fwd a batch = .ok (Finetune.log1pMSELoss errs / a)) ∧
    (∀ (fwd : List α → Except PyErr (List ℚ)) (a : ℚ) (batch : List α)
        (errs1 errs2 : List ℚ),
      fwd batch = .error .oom →
      fwd (batch.take (batch.length / 2)) = .ok errs1 →
      fwd (batch.drop (batch.length / 2)) = .ok errs2 →
      Finetune.trainStep fwd a batch =
        .ok (Finetune.log1pMSELoss errs1 / (a * 2) +
          Finetune.log1pMSELoss errs2 / (a * 2))) ∧
    (∀ (errs1 errs2 : List ℚ) (a : ℚ), errs1.length = errs2.length →
      Finetune.log1pMSELoss errs1 / (a * 2) + Finetune.log1pMSELoss errs2 / (a * 2) =
        Finetune.log1pMSELoss (errs1 ++ errs2) / a) ∧
    (∀ (fwd : List α → Except PyErr (List ℚ)) (a : ℚ) (batch : List α) (e : PyErr),
      fwd batch = .error .oom →
      fwd (batch.take (batch.length / 2)) = .error e →
      Finetune.trainStep fwd a batch = .error e) ∧
    (∀ (fwd : List α → Except PyErr (List ℚ)) (a : ℚ) (batch : List α)
        (errs1 : List ℚ) (e : PyErr),
      fwd batch = .error .oom →
      fwd (batch.take (batch.length / 2)) = .ok errs1 →
      fwd (batch.drop (batch.length / 2)) = .error e →
      Finetune.trainStep fwd a batch = .error e) ∧
    (∀ (fwd : List α → Except PyErr (List ℚ)) (a : ℚ) (batch : List α) (e : PyErr),
      e ≠ .oom → fwd batch = .error e →
      Finetune.trainStep fwd a batch = .error e) := by
  refine ⟨?_, ?_, ?_, ?_, ?_, ?_⟩
  · intro fwd a batch errs h
    simp [Finetune.trainStep, h]
  · intro fwd a batch errs1 errs2 h h1 h2
    simp [Finetune.trainStep, h, h1, h2]
  · intro errs1 errs2 a hlen
    simp only [Finetune.log1pMSELoss, meanQ, List.sum_append, List.length_append,
      hlen]
    push_cast
    rw [div_add_div_same, ← add_div, div_div, div_div]
    congr 1
    ring
  · intro fwd a batch e h h1
    simp [Finetune.trainStep, h, h1]
  · intro fwd a batch errs1 e h h1 h2
    simp [Finetune.trainStep, h, h1, h2]
  · intro fwd a batch e hne h
    unfold Finetune.trainStep
    rw [h]
    cases e with
    | oom => exact absurd rfl hne
    | typeError => rfl
    | keyError => rfl
    | valueError => rfl
    | attributeError => rfl
    | other => rfl

/-- Witness for the amended C8 on the even batch `[1, 2, 3, 5]`: the OOM
recovery runs halves `[1, 2]` and `[3, 5]` and the rescaled merge equals the
unsplit loss. -/
theorem trainStep_oom_recovery_witness :
    Finetune.trainStep fwdOom 1 [1, 2, 3, 5] =
      .ok (Finetune.log1pMSELoss [1, 2] / (1 * 2) +
        Finetune.log1pMSELoss [3, 5] / (1 * 2)) ∧
    Finetune.log1pMSELoss [1, 2] / (1 * 2) + Finetune.log1pMSELoss [3, 5] / (1 * 2) =
      Finetune.log1pMSELoss ([1, 2] ++ [3, 5]) / 1 := by
  constructor
  · exact (trainStep_oom_recovery ℚ).2.1 fwdOom 1 [1, 2, 3, 5] [1, 2] [3, 5]
      rfl rfl rfl
  · exact (trainStep_oom_recovery ℚ).2.2.1 [1, 2] [3, 5] 1 rfl

/-- A heap of mutable token tensors: Python tensor objects addressed by
allocation index, so that in-place writes and aliasing are explicit. -/
structure Store where
  next : ℕ
  mem : ℕ → Tensor2

/-- Allocate a fresh tensor holding `v` (`tokens.clone()`). -/
def Store.alloc (s : Store) (v : Tensor2) : ℕ × Store :=
  (s.next, ⟨s.next + 1, fun j => if j = s.next then v else s.mem j⟩)

/-- In-place write to the tensor at reference `r`. -/
def Store.write (s : Store) (r : ℕ) (v : Tensor2) : Store :=
  ⟨s.next, fun j => if j = r then v else s.mem j⟩

/-- Read the tensor value at reference `r`. -/
def Store.read (s : Store) (r : ℕ) : Tensor2 := s.mem r

/-- One loop iteration of `MaskedZeroShotScore.score` (lines 26-28) against
the heap: `masked_tokens = tokens.clone()` allocates a fresh tensor holding
the current value of the caller's tokens, and `masked_tokens[:, i, ...] =
self.mask_token` writes the mask token only into that clone. -/
def MaskedZeroShotScore.maskStep (maskTok : ℤ) (tokRef i : ℕ) (s : Store) : ℕ × Store :=
  let tv := s.read tokRef
  let p := s.alloc tv
  (p.1, p.2.write p.1 (maskAt tv i maskTok))

/-- The loop of `score` against the heap: iterate `maskStep` over the given
positions, collecting the clipped column of each forward pass (run on the
clone), and thread the heap through. -/
def MaskedZeroShotScore.scoreSt (lp : LogProb) (maskTok : ℤ) (starts : StartsVal)
    (ends : List ℤ) (tokRef : ℕ) : List ℕ → Store → (List (List ℚ) × Store)
  | [], s => ([], s)
  | i :: rest, s =>
      let p := MaskedZeroShotScore.maskStep maskTok tokRef i s
      let col := (List.range (p.2.read p.1).length).map fun n =>
        entry (model_fwd lp (p.2.read p.1)) n i *
          (if (MaskedZeroShotScore.clipMaskAt i starts ends).getD n false then 1 else 0)
      let q := MaskedZeroShotScore.scoreSt lp maskTok starts ends tokRef rest p.2
      (col :: q.1, q.2)

/-- The full `score` call on the heap: one `maskStep` per position
`i ∈ range tokens.shape[1]`. -/
def MaskedZeroShotScore.scoreProg (lp : LogProb) (maskTok : ℤ) (starts : StartsVal)
    (ends : List ℤ) (tokRef : ℕ) (s : Store) : List (List ℚ) × Store :=
  MaskedZeroShotScore.scoreSt lp maskTok starts ends tokRef
    (List.range (numCols (s.read tokRef))) s

/-- A single masking iteration leaves every previously allocated tensor —
in particular the caller's tokens — untouched, and only grows the heap. -/
theorem maskStep_frame (maskTok : ℤ) (tokRef i : ℕ) (s : Store) (h : tokRef < s.next) :
    ((MaskedZeroShotScore.maskStep maskTok tokRef i s).2).read tokRef = s.read tokRef ∧
    tokRef < ((MaskedZeroShotScore.maskStep maskTok tokRef i s).2).next := by
  have hne : tokRef ≠ s.next := Nat.ne_of_lt h
  constructor
  · simp [MaskedZeroShotScore.maskStep, Store.alloc, Store.write, Store.read, hne]
  · simpa [MaskedZeroShotScore.maskStep, Store.alloc, Store.write] using
      Nat.lt_succ_of_lt h

/-- The score loop never writes to the caller's tokens reference. -/
theorem scoreSt_frame (lp : LogProb) (maskTok : ℤ) (starts : StartsVal)
    (ends : List ℤ) (tokRef : ℕ) :
    ∀ (is : List ℕ) (s : Store), tokRef < s.next →
      ((MaskedZeroShotScore.scoreSt lp maskTok starts ends tokRef is s).2).read tokRef =
        s.read tokRef ∧
      tokRef < ((MaskedZeroShotScore.scoreSt lp maskTok starts ends tokRef is s).2).next
  | [], _, h => ⟨rfl, h⟩
  | i :: rest, s, h => by
      obtain ⟨hs1, hs2⟩ := maskStep_frame maskTok tokRef i s h
      obtain ⟨ih1, ih2⟩ := scoreSt_frame lp maskTok starts ends tokRef rest
        (MaskedZeroShotScore.maskStep maskTok tokRef i s).2 hs2
      exact ⟨by simpa [MaskedZeroShotScore.scoreSt] using ih1.trans hs1,
        by simpa [MaskedZeroShotScore.scoreSt] using ih2⟩

/-- C9: the masked scoring variant never mutates its caller's token tensor —
after `score` returns, the tokens tensor holds exactly the values it held
before the call, because every masking write goes to a fresh clone. -/
theorem maskedScore_no_mutation (lp : LogProb) (maskTok : ℤ) (starts : StartsVal)
    (ends : List ℤ) (tokRef : ℕ) (s : Store) (h : tokRef < s.next) :
    ((MaskedZeroShotScore.scoreProg lp maskTok starts ends tokRef s).2).read tokRef =
      s.read tokRef :=
  (scoreSt_frame lp maskTok starts ends tokRef
    (List.range (numCols (s.read tokRef))) s h).1

/-- Witness for C9: a concrete heap holding one 1×2 token batch. -/
theorem maskedScore_no_mutation_witness :
    ((MaskedZeroShotScore.scoreProg lpC2 9 (.vec [0]) [2] 0
      ⟨1, fun _ => [[5, 6]]⟩).2).read 0 =
      (⟨1, fun _ => [[5, 6]]⟩ : Store).read 0 :=
  maskedScore_no_mutation lpC2 9 (.vec [0]) [2] 0 ⟨1, fun _ => [[5, 6]]⟩ (by decide)

end Chrombench
